import Mathlib

/-!
Verification of the answerrocket/mcp-server dynamic tool-registration and
skill-invocation pipeline, shallowly embedded from the Python source
(`mcp_server/utils/skill.py`, `mcp_server/utils/tool.py`,
`mcp_server/utils/validation.py`, `mcp_server/utils/context.py`,
`mcp_server/modes/remote.py`, `mcp_server/tool_registry.py`).

Python argument values are modelled by a flat domain: scalars (`None`,
strings, integers, booleans) and lists of scalars, which covers every value
shape the pipeline inspects (the code only ever tests `is None`,
`isinstance(value, list)`, wraps a scalar into a one-element list, and tests
membership of scalar domain values).
-/

/-- A single-quote character, used when rendering Python-style messages. -/
def pyQuote : String := String.singleton (Char.ofNat 39)

/-- Python scalar values. -/
inductive PyScalar where
  | pnone : PyScalar
  | pstr (s : String) : PyScalar
  | pint (n : Int) : PyScalar
  | pbool (b : Bool) : PyScalar
deriving DecidableEq, Repr

/-- Python values as they flow through skill arguments: scalars and lists of
scalars. -/
inductive PyVal where
  | base (b : PyScalar) : PyVal
  | vlist (l : List PyScalar) : PyVal
deriving DecidableEq, Repr

/-- Python `str()` of a scalar. -/
def PyScalar.pyStr : PyScalar → String
  | .pnone => "None"
  | .pstr s => s
  | .pint n => toString n
  | .pbool b => if b then "True" else "False"

/-- Python `repr()` of a scalar (strings get quoted). -/
def PyScalar.pyRepr : PyScalar → String
  | .pnone => "None"
  | .pstr s => pyQuote ++ s ++ pyQuote
  | .pint n => toString n
  | .pbool b => if b then "True" else "False"

/-- Python `repr()` of a list of scalars: `['a', 'b']`. -/
def pyReprList (l : List PyScalar) : String :=
  "[" ++ String.intercalate ", " (l.map PyScalar.pyRepr) ++ "]"

/-- Python `str()` of a value (f-string interpolation of the value). -/
def PyVal.pyStr : PyVal → String
  | .base b => b.pyStr
  | .vlist l => pyReprList l

/-- `True` iff the first list is a prefix of the second. -/
def isPrefList : List Char → List Char → Bool
  | [], _ => true
  | _ :: _, [] => false
  | a :: as, b :: bs => a = b && isPrefList as bs

/-- Split at the first occurrence of `sep`: returns the text after it, or
`none` when `sep` does not occur (`sep` is assumed nonempty). -/
def afterFirst (sep : List Char) : List Char → Option (List Char)
  | [] => none
  | c :: rest =>
    if isPrefList sep (c :: rest) then some ((c :: rest).drop sep.length)
    else match afterFirst sep rest with
      | some post => some post
      | none => none

/-- Path parsing from `RequestContextExtractor.extract_copilot_id`
(`utils/context.py` lines 34-48).  The Python code checks `"/agent/" in
path`, splits on `"/agent/"` and returns `parts[1].split("/")[0]`; taking
the text after the first occurrence of `/agent/` up to the next `/` is
equivalent (the separator itself starts with `/`, so the first `/` cut
dominates any later separator occurrence). -/
def extract_copilot_id (path : String) : Option String :=
  match afterFirst "/agent/".toList path.toList with
  | some rest => some (String.mk (rest.takeWhile (fun c => c ≠ '/')))
  | none => none

/-- A skill's declared parameter (`SkillParameter` in `mcp_server.models`),
with the fields the pipeline reads: `name`, `required`, `is_multi`,
`constrained_values` (empty list models the Python falsy `None`/`[]`). -/
structure SkillParameter where
  name : String
  required : Bool
  is_multi : Bool
  constrained_values : List PyScalar
deriving DecidableEq, Repr

/-- Skill metadata as fetched from the upstream service (`MaxCopilotSkill`),
with the attributes the pipeline reads: the `scheduling_only` flag
(`getattr(skill_info, 'scheduling_only', False)`) and the raw `parameters`
attribute (`None` or a list).  `skill_id` and `name` identify the skill. -/
structure Skill where
  skill_id : String
  name : String
  scheduling_only : Bool
  parameters : Option (List PyVal)
deriving DecidableEq, Repr

/-- A built skill configuration (`SkillConfig(skill=..., parameters=...)`). -/
structure SkillConfig where
  skill : Skill
  parameters : List SkillParameter
deriving DecidableEq, Repr

namespace SkillService

/-- `SkillService.extract_skill_parameters` (`utils/skill.py` lines 14-23):
starts from an empty accumulator, returns it early when the skill has no
`parameters` attribute or it is `None`, and — as written — also returns the
still-empty accumulator on the remaining path. -/
def extract_skill_parameters (skill : Skill) : List SkillParameter :=
  let parameters : List SkillParameter := []
  match skill.parameters with
  | none => parameters
  | some _ => parameters

/-- The config-building loop of `SkillService.build_skill_configs_async`
(`utils/skill.py` lines 58-68), applied to the joined results of the
per-skill fetches (`None` for a failed fetch): keep each fetched skill whose
`scheduling_only` flag is not set, pairing it with its extracted
parameters. -/
def build_skill_configs_async (skill_infos : List (Option Skill)) :
    List SkillConfig :=
  match skill_infos with
  | [] => []
  | none :: rest => build_skill_configs_async rest
  | some skill_info :: rest =>
    if skill_info.scheduling_only then build_skill_configs_async rest
    else ⟨skill_info, extract_skill_parameters skill_info⟩ ::
      build_skill_configs_async rest

end SkillService

/-- First-match association lookup, the behaviour of a Python `dict` built
with unique keys (`name in d` / `d[name]` / `d.get(name, default)`). -/
def lookupKw (kwargs : List (String × PyVal)) (name : String) : Option PyVal :=
  match kwargs with
  | [] => none
  | (k, v) :: rest => if k = name then some v else lookupKw rest name

/-- Python `d.get(key, default)`. -/
def dictGetD (d : List (String × PyVal)) (key : String) (dflt : PyVal) :
    PyVal :=
  match lookupKw d key with
  | some v => v
  | none => dflt

/-- The parameter-processing loop of `skill_tool_function`
(`utils/tool.py` lines 47-63): walk the parameters dict in order; a
parameter present in `kwargs` is copied into `processed_params` unless its
value is `None` (then it is dropped); the first parameter absent from
`kwargs` whose info says `required` aborts with that parameter's name (the
caller shapes the error return from it). -/
def processParams (params : List SkillParameter)
    (kwargs : List (String × PyVal)) : Except String (List (String × PyVal)) :=
  match params with
  | [] => .ok []
  | p :: rest =>
    match lookupKw kwargs p.name with
    | some v =>
      if v = .base .pnone then processParams rest kwargs
      else
        match processParams rest kwargs with
        | .ok l => .ok ((p.name, v) :: l)
        | .error e => .error e
    | none =>
      if p.required then .error p.name
      else processParams rest kwargs

/-- The dict returned by `skill_tool_function` when a required parameter is
missing: `{"success": False, "error": ..., "skill_name": ..., "skill_id": ...}`. -/
structure RequiredParamFailure where
  success : Bool
  error : String
  skill_name : String
  skill_id : String
deriving DecidableEq, Repr

/-- A value returned by the tool callable: either the missing-required-param
error dict or a plain value (remote error field, final message, message
strings). -/
inductive ToolReturn where
  | errDict (e : RequiredParamFailure) : ToolReturn
  | val (v : PyVal) : ToolReturn
deriving DecidableEq, Repr

/-- How one invocation of the tool callable ends: a returned value, or an
exception propagated out of the callable. -/
inductive ToolOutcome where
  | returned (r : ToolReturn) : ToolOutcome
  | raised (msg : String) : ToolOutcome
deriving DecidableEq, Repr

/-- The shape of the remote execution result
(`ar_client.skill.run(...)`): `success` flag, `error` field, optional
`data` dict. -/
structure SkillResult where
  success : Bool
  error : PyVal
  data : Option (List (String × PyVal))
deriving DecidableEq, Repr

/-- A record of one issued remote skill-execution call
(`ar_client.skill.run(actual_copilot_id, skill_name, processed_params)`). -/
structure RemoteCall where
  copilot_id : String
  skill_name : String
  args : List (String × PyVal)
deriving DecidableEq, Repr

/-- Behaviour of the resolved client during one invocation: client creation
(`ok false` = no client, `error` = raised), the connectivity probe, and the
remote call.  `Except.error` models a raised Python exception carrying
`str(e)`. -/
structure ClientBehavior where
  createClient : Except String Bool
  canConnect : Except String Bool
  runSkill : String → String → List (String × PyVal) → Except String SkillResult

/-- The data closed over by one produced tool callable: the skill's name and
id, its parameters dict (in insertion order), and the statically bound
`copilot_id` argument. -/
structure ToolConfig where
  skill_name : String
  skill_id : String
  parameters : List SkillParameter
  copilot_id : Option String

/-- Python `a or b` on optional strings: `a` unless it is falsy
(`None` or `""`). -/
def pyOrStr (a b : Option String) : Option String :=
  match a with
  | some s => if s = "" then b else some s
  | none => b

/-- The body of the `try:` block of `skill_tool_function`
(`utils/tool.py` lines 43-95), together with the list of remote
skill-execution calls issued.  `Except.error` is an exception reaching the
end of the `try:` block; early `return`s are `Except.ok`.
`ctx_copilot_id` is what `RequestContextExtractor.extract_copilot_id`
yields for the invocation's context. -/
def skill_tool_try (cfg : ToolConfig) (cb : ClientBehavior)
    (ctx_copilot_id : Option String) (kwargs : List (String × PyVal)) :
    Except String ToolReturn × List RemoteCall :=
  match processParams cfg.parameters kwargs with
  | .error missing =>
    (.ok (.errDict ⟨false,
      "Required parameter " ++ pyQuote ++ missing ++ pyQuote ++ " not provided",
      cfg.skill_name, cfg.skill_id⟩), [])
  | .ok processed_params =>
    match cb.createClient with
    | .error e => (.error e, [])
    | .ok false =>
      (.error "Cannot create AnswerRocket client - no valid token available", [])
    | .ok true =>
      match cb.canConnect with
      | .error e => (.error e, [])
      | .ok false => (.error "Cannot connect to AnswerRocket", [])
      | .ok true =>
        match pyOrStr cfg.copilot_id ctx_copilot_id with
        | none => (.error "No copilot ID available", [])
        | some cid =>
          if cid = "" then (.error "No copilot ID available", [])
          else
            let call : RemoteCall := ⟨cid, cfg.skill_name, processed_params⟩
            match cb.runSkill cid cfg.skill_name processed_params with
            | .error e => (.error e, [call])
            | .ok skill_result =>
              if skill_result.success then
                match skill_result.data with
                | some d =>
                  (.ok (.val (dictGetD d "final_message" (.base (.pstr "")))),
                    [call])
                | none =>
                  (.ok (.val (.base (.pstr "No data returned from skill"))),
                    [call])
              else (.ok (.val skill_result.error), [call])

/-- `skill_tool_function` (`utils/tool.py` lines 41-99): the `try:` body
wrapped in the outermost `except Exception` handler, which converts any
exception into the returned message
`f"Error running skill {skill_name}: {str(e)}"`. -/
def skill_tool_function (cfg : ToolConfig) (cb : ClientBehavior)
    (ctx_copilot_id : Option String) (kwargs : List (String × PyVal)) :
    ToolOutcome × List RemoteCall :=
  match skill_tool_try cfg cb ctx_copilot_id kwargs with
  | (.ok r, calls) => (.returned r, calls)
  | (.error e, calls) =>
    (.returned (.val (.base (.pstr
      ("Error running skill " ++ cfg.skill_name ++ ": " ++ e)))), calls)

/-- Python `value in constrained_values` for a supplied value against a list
of scalar domain values (a list value is never a member of a scalar set). -/
def pyMem (v : PyVal) (cs : List PyScalar) : Bool :=
  match v with
  | .base b => cs.contains b
  | .vlist _ => false

/-- `if not isinstance(value, list): value = [value]` — the list a value is
treated as by the `multi` branch: a list stays itself, a bare scalar is
wrapped in a single-element list. -/
def asMultiList (v : PyVal) : List PyScalar :=
  match v with
  | .vlist l => l
  | .base b => [b]

/-- `ArgumentValidator.validate_skill_arguments` (`utils/validation.py`
lines 11-50): walk the declared parameters in order; drop `None` values;
check constrained values (wrapping a bare scalar in a one-element list for a
`multi` parameter before checking each element); wrap `multi` scalars; a
violation or a missing required parameter raises `ValueError`
(`Except.error` with `str(e)`). -/
def validate_skill_arguments (args : List (String × PyVal))
    (params : List SkillParameter) : Except String (List (String × PyVal)) :=
  match params with
  | [] => .ok []
  | p :: rest =>
    match lookupKw args p.name with
    | some value =>
      if value = .base .pnone then validate_skill_arguments args rest
      else
        let check : Except String PyVal :=
          if p.constrained_values = [] then .ok value
          else if p.is_multi then
            let value1 : List PyScalar := asMultiList value
            let invalid_values :=
              value1.filter (fun x => !p.constrained_values.contains x)
            match invalid_values with
            | [] => .ok (.vlist value1)
            | _ =>
              .error ("Invalid values for " ++ p.name ++ ": " ++
                pyReprList invalid_values ++ ". Allowed values: " ++
                pyReprList p.constrained_values)
          else if pyMem value p.constrained_values then .ok value
          else
            .error ("Invalid value for " ++ p.name ++ ": " ++ value.pyStr ++
              ". Allowed values: " ++ pyReprList p.constrained_values)
        match check with
        | .error e => .error e
        | .ok value2 =>
          let value3 : PyVal :=
            match value2 with
            | .base b => if p.is_multi then .vlist [b] else .base b
            | .vlist l => .vlist l
          match validate_skill_arguments args rest with
          | .ok l => .ok ((p.name, value3) :: l)
          | .error e => .error e
    | none =>
      if p.required then .error ("Missing required parameter: " ++ p.name)
      else validate_skill_arguments args rest

/-- Environment of one dynamic listing call: `fetch` gives the tool names
produced for a tenant by the skill fetch-and-build step, and `clientOk`
says whether `ClientManager.create_client_from_context` yields a client.
A registry entry is a pair `(tenant, tool name)`; the tenant component is a
ghost tag recording which tenant's registration cycle added the entry. -/
structure ListEnv where
  fetch : String → List String
  clientOk : Bool

namespace RemoteMode

/-- `dynamic_list_tools` of `RemoteMode._setup_dynamic_tool_registration`
(`modes/remote.py` lines 55-71) together with `_register_copilot_tools`
(lines 75-102): extract the tenant id from the request path; when none (or
an empty one) is found, return the current listing unchanged; when one is
found, clear all registered tools, then — if a client can be created and
the fetch yields configs — register the fetched tools.  Returns
`(new registry state, returned listing)`. -/
def dynamic_list_tools (env : ListEnv) (st : List (String × String))
    (path : String) : List (String × String) × List (String × String) :=
  match extract_copilot_id path with
  | none => (st, st)
  | some cid =>
    if cid = "" then (st, st)
    else
      let cleared : List (String × String) := []
      if env.clientOk then
        match env.fetch cid with
        | [] => (cleared, cleared)
        | names =>
          let st1 := cleared ++ names.map (fun n => (cid, n))
          (st1, st1)
      else (cleared, cleared)

end RemoteMode

/-- Modelled from the spec: `SkillService.fetch_hydrated_reports`, called
between the clear and the re-registration in `modes/remote.py`, is not part
of the sources; per the spec's concurrency section the fetch is awaited, so
"a suspension point (an awaited fetch) sits inside the critical section".
`fetch` gives the tool names the fetch produces for a tenant. -/
structure ConcEnv where
  fetch : String → List String

/-- Progress of one dynamic listing task through its segments: not yet run;
suspended at the awaited fetch (the clear has executed); finished with the
listing it returned. -/
inductive TaskPhase where
  | ready : TaskPhase
  | fetching : TaskPhase
  | finished (listing : List (String × String)) : TaskPhase
deriving DecidableEq, Repr

/-- One in-flight dynamic listing call: its tenant and its progress. -/
structure ConcTask where
  tenant : String
  phase : TaskPhase
deriving DecidableEq, Repr

/-- The shared registry plus two concurrent listing tasks. -/
structure ConcState where
  reg : List (String × String)
  t1 : ConcTask
  t2 : ConcTask
deriving DecidableEq, Repr

/-- Advance one task by one atomic segment of `dynamic_list_tools`
(`modes/remote.py` lines 55-71, with the fetch awaited as the spec's
concurrency section describes): from `ready`, clear the registry and
suspend at the awaited fetch; from `fetching`, register the fetched tools
and return the current listing — no lock guards the section. -/
def stepTask (env : ConcEnv) (reg : List (String × String)) (t : ConcTask) :
    List (String × String) × ConcTask :=
  match t.phase with
  | .ready => ([], { t with phase := .fetching })
  | .fetching =>
    let reg1 := reg ++ (env.fetch t.tenant).map (fun n => (t.tenant, n))
    (reg1, { t with phase := .finished reg1 })
  | .finished _ => (reg, t)

/-- Run a cooperative schedule: at each step the scheduler picks which of
the two tasks advances by one segment (`true` = first task). -/
def runSched (env : ConcEnv) (s : ConcState) : List Bool → ConcState
  | [] => s
  | pick :: rest =>
    if pick then
      let st1 := stepTask env s.reg s.t1
      runSched env { s with reg := st1.1, t1 := st1.2 } rest
    else
      let st2 := stepTask env s.reg s.t2
      runSched env { s with reg := st2.1, t2 := st2.2 } rest

/-! ## Helper lemmas -/

/-- `SkillService.extract_skill_parameters` returns its empty accumulator on
every path. -/
theorem extract_skill_parameters_eq_nil (skill : Skill) :
    SkillService.extract_skill_parameters skill = [] := by
  unfold SkillService.extract_skill_parameters
  cases skill.parameters <;> rfl

/-- Every config built by `build_skill_configs_async` comes from a fetched
skill whose `scheduling_only` flag is unset. -/
theorem build_configs_not_scheduling (skill_infos : List (Option Skill)) :
    ∀ cfg ∈ SkillService.build_skill_configs_async skill_infos,
      cfg.skill.scheduling_only = false := by
  induction skill_infos with
  | nil =>
    intro cfg h
    simp [SkillService.build_skill_configs_async] at h
  | cons hd rest ih =>
    intro cfg h
    cases hd with
    | none =>
      rw [SkillService.build_skill_configs_async] at h
      exact ih cfg h
    | some sk =>
      rw [SkillService.build_skill_configs_async] at h
      by_cases hs : sk.scheduling_only = true
      · rw [if_pos hs] at h
        exact ih cfg h
      · rw [if_neg hs] at h
        rcases List.mem_cons.mp h with h1 | h2
        · rw [h1]
          simpa using hs
        · exact ih cfg h2

/-- Every config built by `build_skill_configs_async` carries the empty
parameter list. -/
theorem build_configs_params_empty (skill_infos : List (Option Skill)) :
    ∀ cfg ∈ SkillService.build_skill_configs_async skill_infos,
      cfg.parameters = [] := by
  induction skill_infos with
  | nil =>
    intro cfg h
    simp [SkillService.build_skill_configs_async] at h
  | cons hd rest ih =>
    intro cfg h
    cases hd with
    | none =>
      rw [SkillService.build_skill_configs_async] at h
      exact ih cfg h
    | some sk =>
      rw [SkillService.build_skill_configs_async] at h
      by_cases hs : sk.scheduling_only = true
      · rw [if_pos hs] at h
        exact ih cfg h
      · rw [if_neg hs] at h
        rcases List.mem_cons.mp h with h1 | h2
        · rw [h1]
          exact extract_skill_parameters_eq_nil sk
        · exact ih cfg h2

/-! ## C1 -/

/-- C1: for every skill fetched during a registration cycle whose
`scheduling_only` flag is set, `build_skill_configs_async` excludes it: no
built config (hence no registered tool) is for that skill. -/
theorem scheduling_only_never_in_built_configs
    (skill_infos : List (Option Skill)) (s : Skill)
    (hfetched : some s ∈ skill_infos) (hsched : s.scheduling_only = true) :
    ∀ cfg ∈ SkillService.build_skill_configs_async skill_infos,
      cfg.skill ≠ s := by
  intro cfg hcfg heq
  have hflag := build_configs_not_scheduling skill_infos cfg hcfg
  rw [heq, hsched] at hflag
  exact Bool.noConfusion hflag

/-- A scheduling-only skill used to witness C1. -/
def schedSkill : Skill := ⟨"id-sched", "sched_report", true, none⟩

/-- An ordinary skill used alongside `schedSkill`. -/
def plainSkill : Skill := ⟨"id-plain", "plain_report", false, none⟩

/-- A concrete fetch-result list containing both skills. -/
def fetchedInfos : List (Option Skill) := [some schedSkill, some plainSkill]

/-- Witness for C1 at a concrete registration cycle. -/
theorem scheduling_only_never_in_built_configs_witness :
    some schedSkill ∈ fetchedInfos ∧ schedSkill.scheduling_only = true ∧
      ∀ cfg ∈ SkillService.build_skill_configs_async fetchedInfos,
        cfg.skill ≠ schedSkill :=
  ⟨by decide, rfl,
    scheduling_only_never_in_built_configs fetchedInfos schedSkill
      (by decide) rfl⟩

/-! ## C8 -/

/-- C8: `SkillService.extract_skill_parameters` returns the empty list for
every input skill, so every config produced by `build_skill_configs_async`
has no declared parameters, and the tool callable built from such a config
has nothing to validate or forward (`processParams` succeeds with the empty
argument list on any invocation). -/
theorem skill_service_parameters_always_empty
    (skill : Skill) (skill_infos : List (Option Skill)) (cfg : SkillConfig)
    (hcfg : cfg ∈ SkillService.build_skill_configs_async skill_infos) :
    SkillService.extract_skill_parameters skill = [] ∧ cfg.parameters = [] ∧
      ∀ kwargs, processParams cfg.parameters kwargs = .ok [] := by
  have hparams := build_configs_params_empty skill_infos cfg hcfg
  refine ⟨extract_skill_parameters_eq_nil skill, hparams, ?_⟩
  intro kwargs
  rw [hparams]
  rfl

/-- A skill declaring a raw parameter, to witness C8 on a skill that does
declare parameters. -/
def paramSkill : Skill :=
  ⟨"id-param", "param_report", false, some [.base (.pstr "p1")]⟩

/-- Witness for C8 at a concrete skill with declared parameters. -/
theorem skill_service_parameters_always_empty_witness :
    SkillService.extract_skill_parameters paramSkill = [] ∧
      (SkillConfig.mk paramSkill []).parameters = [] ∧
      ∀ kwargs,
        processParams (SkillConfig.mk paramSkill []).parameters kwargs =
          .ok [] :=
  skill_service_parameters_always_empty paramSkill [some paramSkill]
    (SkillConfig.mk paramSkill []) (by decide)

/-! ## C2 -/

/-- If some required parameter is absent from `kwargs`, the processing loop
aborts with the name of a required, absent parameter (the first such), and
that name is reported. -/
theorem processParams_missing_required
    (params : List SkillParameter) (kwargs : List (String × PyVal))
    (p : SkillParameter) (hp : p ∈ params) (hreq : p.required = true)
    (habs : lookupKw kwargs p.name = none) :
    ∃ q ∈ params, q.required = true ∧ lookupKw kwargs q.name = none ∧
      processParams params kwargs = .error q.name := by
  induction params with
  | nil => cases hp
  | cons hd rest ih =>
    rcases List.mem_cons.mp hp with h1 | h2
    · subst h1
      exact ⟨p, List.mem_cons_self _ _, hreq, habs, by
        rw [processParams, habs, if_pos hreq]⟩
    · cases hlk : lookupKw kwargs hd.name with
      | none =>
        cases hr : hd.required with
        | true =>
          exact ⟨hd, List.mem_cons_self _ _, hr, hlk, by
            rw [processParams, hlk, if_pos hr]⟩
        | false =>
          obtain ⟨q, hq, hqr, hqa, hqe⟩ := ih h2
          exact ⟨q, List.mem_cons_of_mem _ hq, hqr, hqa, by
            rw [processParams, hlk, if_neg (by simp [hr]), hqe]⟩
      | some v =>
        obtain ⟨q, hq, hqr, hqa, hqe⟩ := ih h2
        by_cases hv : v = PyVal.base .pnone
        · exact ⟨q, List.mem_cons_of_mem _ hq, hqr, hqa, by
            simp [processParams, hlk, hv, hqe]⟩
        · exact ⟨q, List.mem_cons_of_mem _ hq, hqr, hqa, by
            simp [processParams, hlk, hv, hqe]⟩

/-- C2: invoking the produced tool callable without a required parameter
returns the validation-error-shaped dict naming a required parameter absent
from the argument mapping, and no remote skill-execution call is issued. -/
theorem missing_required_param_fails_without_remote_call
    (cfg : ToolConfig) (cb : ClientBehavior) (ctx_copilot_id : Option String)
    (kwargs : List (String × PyVal)) (p : SkillParameter)
    (hp : p ∈ cfg.parameters) (hreq : p.required = true)
    (habs : lookupKw kwargs p.name = none) :
    ∃ q ∈ cfg.parameters, q.required = true ∧
      lookupKw kwargs q.name = none ∧
      skill_tool_function cfg cb ctx_copilot_id kwargs =
        (.returned (.errDict ⟨false,
          "Required parameter " ++ pyQuote ++ q.name ++ pyQuote ++
            " not provided",
          cfg.skill_name, cfg.skill_id⟩), []) := by
  obtain ⟨q, hq, hqr, hqa, hqe⟩ :=
    processParams_missing_required cfg.parameters kwargs p hp hreq habs
  exact ⟨q, hq, hqr, hqa, by
    rw [skill_tool_function, skill_tool_try, hqe]⟩

/-- A required string parameter named `region`, used by several witnesses. -/
def regionParam : SkillParameter := ⟨"region", true, false, []⟩

/-- A tool config with the single required parameter `region`. -/
def regionCfg : ToolConfig := ⟨"sales_report", "sk-1", [regionParam], some "c1"⟩

/-- A client behaviour for witnesses: client created, connected, remote call
succeeds with a `final_message`. -/
def happyClient : ClientBehavior :=
  ⟨.ok true, .ok true, fun _ _ _ =>
    .ok ⟨true, .base .pnone, some [("final_message", .base (.pstr "done"))]⟩⟩

/-- Witness for C2: invoking the `region` tool with no arguments. -/
theorem missing_required_param_fails_witness :
    ∃ q ∈ regionCfg.parameters, q.required = true ∧
      lookupKw [] q.name = none ∧
      skill_tool_function regionCfg happyClient none [] =
        (.returned (.errDict ⟨false,
          "Required parameter " ++ pyQuote ++ q.name ++ pyQuote ++
            " not provided",
          regionCfg.skill_name, regionCfg.skill_id⟩), []) :=
  missing_required_param_fails_without_remote_call regionCfg happyClient
    none [] regionParam (by decide) rfl rfl

/-! ## C5 -/

/-- C5: whatever the argument mapping and the client behaviour — including
raised exceptions from client creation, the connectivity probe or the
remote call — the tool callable returns a value; it never propagates an
exception (the `raised` outcome is unreachable). -/
theorem tool_callable_never_raises
    (cfg : ToolConfig) (cb : ClientBehavior) (ctx_copilot_id : Option String)
    (kwargs : List (String × PyVal)) :
    ∃ r calls, skill_tool_function cfg cb ctx_copilot_id kwargs =
      (.returned r, calls) := by
  rcases h : skill_tool_try cfg cb ctx_copilot_id kwargs with ⟨res, calls⟩
  cases res with
  | ok r => exact ⟨r, calls, by simp [skill_tool_function, h]⟩
  | error e =>
    exact ⟨.val (.base (.pstr
      ("Error running skill " ++ cfg.skill_name ++ ": " ++ e))), calls,
      by simp [skill_tool_function, h]⟩

/-! ## C9 -/

/-- When every required parameter's name is present in `kwargs`, the
processing loop succeeds, and each processed entry is exactly a supplied,
non-`None` argument. -/
theorem processParams_ok
    (params : List SkillParameter) (kwargs : List (String × PyVal))
    (hall : ∀ q ∈ params, q.required = true → lookupKw kwargs q.name ≠ none) :
    ∃ l, processParams params kwargs = .ok l ∧
      ∀ e ∈ l, lookupKw kwargs e.1 = some e.2 ∧ e.2 ≠ PyVal.base .pnone := by
  induction params with
  | nil => exact ⟨[], rfl, by simp⟩
  | cons hd rest ih =>
    obtain ⟨l, hl, hprop⟩ :=
      ih (fun q hq => hall q (List.mem_cons_of_mem _ hq))
    cases hlk : lookupKw kwargs hd.name with
    | none =>
      cases hr : hd.required with
      | true => exact absurd hlk (hall hd (List.mem_cons_self _ _) hr)
      | false => exact ⟨l, by simp [processParams, hlk, hr, hl], hprop⟩
    | some v =>
      by_cases hv : v = PyVal.base .pnone
      · exact ⟨l, by simp [processParams, hlk, hv, hl], hprop⟩
      · refine ⟨(hd.name, v) :: l, by simp [processParams, hlk, hv, hl], ?_⟩
        intro e he
        rcases List.mem_cons.mp he with h1 | h2
        · rw [h1]
          exact ⟨hlk, hv⟩
        · exact hprop e h2

/-- C9: supplying a required parameter with the value `None` produces no
validation error: the `None` value is dropped from the processed arguments
and the remote skill-execution call is issued without that parameter. -/
theorem none_valued_required_param_dropped
    (cfg : ToolConfig) (cb : ClientBehavior) (ctx_copilot_id : Option String)
    (kwargs : List (String × PyVal)) (p : SkillParameter) (cid : String)
    (hp : p ∈ cfg.parameters) (hreq : p.required = true)
    (hnone : lookupKw kwargs p.name = some (.base .pnone))
    (hall : ∀ q ∈ cfg.parameters, q.required = true →
      lookupKw kwargs q.name ≠ none)
    (hclient : cb.createClient = .ok true)
    (hconn : cb.canConnect = .ok true)
    (hcid : pyOrStr cfg.copilot_id ctx_copilot_id = some cid)
    (hcid' : cid ≠ "") :
    ∃ processed, processParams cfg.parameters kwargs = .ok processed ∧
      p.name ∉ processed.map Prod.fst ∧
      (skill_tool_function cfg cb ctx_copilot_id kwargs).2 =
        [⟨cid, cfg.skill_name, processed⟩] ∧
      ∀ e, (skill_tool_function cfg cb ctx_copilot_id kwargs).1 ≠
        .returned (.errDict e) := by
  obtain ⟨processed, hproc, hprop⟩ := processParams_ok cfg.parameters kwargs hall
  have hdrop : p.name ∉ processed.map Prod.fst := by
    intro hmem
    obtain ⟨e, he, hfst⟩ := List.mem_map.mp hmem
    obtain ⟨hlk, hnn⟩ := hprop e he
    rw [hfst, hnone] at hlk
    exact hnn (Option.some_injective _ hlk.symm)
  have hmain : ∃ w, skill_tool_function cfg cb ctx_copilot_id kwargs =
      (.returned (.val w), [⟨cid, cfg.skill_name, processed⟩]) := by
    cases hrun : cb.runSkill cid cfg.skill_name processed with
    | error e =>
      exact ⟨.base (.pstr
        ("Error running skill " ++ cfg.skill_name ++ ": " ++ e)),
        by simp [skill_tool_function, skill_tool_try, hproc, hclient,
          hconn, hcid, hcid', hrun]⟩
    | ok res =>
      cases hs : res.success with
      | false =>
        exact ⟨res.error, by simp [skill_tool_function, skill_tool_try, hproc,
          hclient, hconn, hcid, hcid', hrun, hs]⟩
      | true =>
        cases hd : res.data with
        | none =>
          exact ⟨.base (.pstr "No data returned from skill"),
            by simp [skill_tool_function, skill_tool_try, hproc,
              hclient, hconn, hcid, hcid', hrun, hs, hd]⟩
        | some d =>
          exact ⟨dictGetD d "final_message" (.base (.pstr "")),
            by simp [skill_tool_function, skill_tool_try, hproc,
              hclient, hconn, hcid, hcid', hrun, hs, hd]⟩
  obtain ⟨w, hw⟩ := hmain
  refine ⟨processed, hproc, hdrop, by rw [hw], ?_⟩
  intro e hcontra
  rw [hw] at hcontra
  cases hcontra

/-- Witness for C9: the required `region` supplied as `None`; the remote
call goes out with no parameters. -/
theorem none_valued_required_param_dropped_witness :
    ∃ processed,
      processParams regionCfg.parameters [("region", .base .pnone)] =
        .ok processed ∧
      "region" ∉ processed.map Prod.fst ∧
      (skill_tool_function regionCfg happyClient none
        [("region", .base .pnone)]).2 =
        [⟨"c1", regionCfg.skill_name, processed⟩] ∧
      ∀ e, (skill_tool_function regionCfg happyClient none
        [("region", .base .pnone)]).1 ≠ .returned (.errDict e) :=
  none_valued_required_param_dropped regionCfg happyClient none
    [("region", .base .pnone)] regionParam "c1" (by decide) rfl (by decide)
    (by decide) rfl rfl rfl (by decide)

/-! ## C4 -/

/-- C4 (amended): once the remote execution call returns a result, the
callable maps it as the code does: `success == false` returns the result's
`error` field without raising; `success == true` with a data payload
returns the payload's `final_message` field, defaulting to the empty
string when the field is absent; the literal "No data returned from skill"
message is returned only when the data payload itself is absent. -/
theorem remote_result_mapping
    (cfg : ToolConfig) (cb : ClientBehavior) (ctx_copilot_id : Option String)
    (kwargs : List (String × PyVal)) (processed : List (String × PyVal))
    (cid : String) (res : SkillResult)
    (hproc : processParams cfg.parameters kwargs = .ok processed)
    (hclient : cb.createClient = .ok true)
    (hconn : cb.canConnect = .ok true)
    (hcid : pyOrStr cfg.copilot_id ctx_copilot_id = some cid)
    (hcid' : cid ≠ "")
    (hrun : cb.runSkill cid cfg.skill_name processed = .ok res) :
    (res.success = false →
      skill_tool_function cfg cb ctx_copilot_id kwargs =
        (.returned (.val res.error), [⟨cid, cfg.skill_name, processed⟩])) ∧
    (res.success = true → ∀ d, res.data = some d →
      skill_tool_function cfg cb ctx_copilot_id kwargs =
        (.returned (.val (dictGetD d "final_message" (.base (.pstr "")))),
          [⟨cid, cfg.skill_name, processed⟩])) ∧
    (res.success = true → res.data = none →
      skill_tool_function cfg cb ctx_copilot_id kwargs =
        (.returned (.val (.base (.pstr "No data returned from skill"))),
          [⟨cid, cfg.skill_name, processed⟩])) := by
  refine ⟨?_, ?_, ?_⟩
  · intro hs
    simp [skill_tool_function, skill_tool_try, hproc, hclient, hconn, hcid,
      hcid', hrun, hs]
  · intro hs d hd
    simp [skill_tool_function, skill_tool_try, hproc, hclient, hconn, hcid,
      hcid', hrun, hs, hd]
  · intro hs hd
    simp [skill_tool_function, skill_tool_try, hproc, hclient, hconn, hcid,
      hcid', hrun, hs, hd]

/-- A client whose remote call fails with the error "quota exceeded". -/
def quotaClient : ClientBehavior :=
  ⟨.ok true, .ok true, fun _ _ _ =>
    .ok ⟨false, .base (.pstr "quota exceeded"), none⟩⟩

/-- Witness for C4 at the spec's scenario: the remote result
`{success: false, error: "quota exceeded"}` is returned as the value. -/
theorem remote_result_mapping_witness :
    (false = false →
      skill_tool_function regionCfg quotaClient none
          [("region", .base (.pstr "west"))] =
        (.returned (.val (.base (.pstr "quota exceeded"))),
          [⟨"c1", regionCfg.skill_name,
            [("region", .base (.pstr "west"))]⟩])) ∧
    (false = true → ∀ d,
      (none : Option (List (String × PyVal))) = some d →
      skill_tool_function regionCfg quotaClient none
          [("region", .base (.pstr "west"))] =
        (.returned (.val (dictGetD d "final_message" (.base (.pstr "")))),
          [⟨"c1", regionCfg.skill_name,
            [("region", .base (.pstr "west"))]⟩])) ∧
    (false = true →
      (none : Option (List (String × PyVal))) = none →
      skill_tool_function regionCfg quotaClient none
          [("region", .base (.pstr "west"))] =
        (.returned (.val (.base (.pstr "No data returned from skill"))),
          [⟨"c1", regionCfg.skill_name,
            [("region", .base (.pstr "west"))]⟩])) :=
  remote_result_mapping regionCfg quotaClient none
    [("region", .base (.pstr "west"))] [("region", .base (.pstr "west"))]
    "c1" ⟨false, .base (.pstr "quota exceeded"), none⟩ rfl rfl rfl rfl
    (by decide) rfl

/-- A client whose remote call succeeds with a data payload that has no
`final_message` field. -/
def emptyDataClient : ClientBehavior :=
  ⟨.ok true, .ok true, fun _ _ _ => .ok ⟨true, .base .pnone, some []⟩⟩

/-- Counterexample for C4 as stated: when the data payload is present but
has no `final_message` field, the callable returns the empty string — not
a "no data returned" message. -/
theorem final_message_absent_returns_empty_string :
    skill_tool_function regionCfg emptyDataClient none
        [("region", .base (.pstr "west"))] =
      (.returned (.val (.base (.pstr ""))),
        [⟨"c1", "sales_report", [("region", .base (.pstr "west"))]⟩]) ∧
    PyVal.base (.pstr "") ≠ .base (.pstr "No data returned from skill") := by
  exact ⟨by decide, by decide⟩

/-! ## C3 -/

/-- The tool callable's parameter loop copies supplied values into the
remote-call arguments unchanged: it performs no constrained-value check of
any kind. -/
theorem processParams_forwards
    (params : List SkillParameter) (kwargs : List (String × PyVal))
    (l : List (String × PyVal)) (hok : processParams params kwargs = .ok l) :
    ∀ e ∈ l, lookupKw kwargs e.1 = some e.2 := by
  induction params generalizing l with
  | nil =>
    rw [processParams] at hok
    cases hok
    simp
  | cons hd rest ih =>
    cases hlk : lookupKw kwargs hd.name with
    | none =>
      cases hr : hd.required with
      | true => simp [processParams, hlk, hr] at hok
      | false =>
        simp only [processParams, hlk, hr] at hok
        simp only [Bool.false_eq_true, if_false] at hok
        exact ih l hok
    | some v =>
      by_cases hv : v = PyVal.base .pnone
      · simp only [processParams, hlk, hv, if_true] at hok
        exact ih l hok
      · simp only [processParams, hlk] at hok
        rw [if_neg hv] at hok
        cases hrest : processParams rest kwargs with
        | error e =>
          rw [hrest] at hok
          cases hok
        | ok l2 =>
          rw [hrest] at hok
          cases hok
          intro e he
          rcases List.mem_cons.mp he with h1 | h2
          · rw [h1]
            exact hlk
          · exact ih l2 hrest e h2

/-- C3 (amended): the constrained-value check lives in
`ArgumentValidator.validate_skill_arguments`: a supplied value outside the
declared set raises a `ValueError` listing the allowed set (a bare scalar
supplied for a `multi` parameter is first wrapped in a single-element list
and every element must be a member), and a value inside the set passes
validation.  The produced tool callable itself never performs this check:
its loop forwards every supplied value to the remote call unchanged. -/
theorem constrained_values_validator_spec
    (p : SkillParameter) (v : PyVal)
    (hc : p.constrained_values ≠ []) (hv : v ≠ .base .pnone) :
    (p.is_multi = false → pyMem v p.constrained_values = true →
      validate_skill_arguments [(p.name, v)] [p] = .ok [(p.name, v)]) ∧
    (p.is_multi = false → pyMem v p.constrained_values = false →
      validate_skill_arguments [(p.name, v)] [p] = .error
        ("Invalid value for " ++ p.name ++ ": " ++ v.pyStr ++
          ". Allowed values: " ++ pyReprList p.constrained_values)) ∧
    (p.is_multi = true →
      (∀ x ∈ asMultiList v, p.constrained_values.contains x = true) →
      validate_skill_arguments [(p.name, v)] [p] =
        .ok [(p.name, .vlist (asMultiList v))]) ∧
    (p.is_multi = true →
      (asMultiList v).filter
        (fun x => !p.constrained_values.contains x) ≠ [] →
      validate_skill_arguments [(p.name, v)] [p] = .error
        ("Invalid values for " ++ p.name ++ ": " ++
          pyReprList ((asMultiList v).filter
            (fun x => !p.constrained_values.contains x)) ++
          ". Allowed values: " ++ pyReprList p.constrained_values)) ∧
    (∀ params kwargs l, processParams params kwargs = .ok l →
      ∀ e ∈ l, lookupKw kwargs e.1 = some e.2) := by
  refine ⟨?_, ?_, ?_, ?_, processParams_forwards⟩
  · intro hm hmem
    cases v with
    | base b => simp [validate_skill_arguments, lookupKw, hv, hc, hm, hmem]
    | vlist l => simp [validate_skill_arguments, lookupKw, hv, hc, hm, hmem]
  · intro hm hmem
    cases v with
    | base b => simp [validate_skill_arguments, lookupKw, hv, hc, hm, hmem]
    | vlist l => simp [validate_skill_arguments, lookupKw, hv, hc, hm, hmem]
  · intro hm hmem
    have hfil : (asMultiList v).filter
        (fun x => !p.constrained_values.contains x) = [] := by
      rw [List.filter_eq_nil_iff]
      intro a ha
      simpa using hmem a ha
    have hfil' : (asMultiList v).filter
        (fun x => !decide (x ∈ p.constrained_values)) = [] := by
      simpa using hfil
    cases v with
    | base b =>
      simp only [asMultiList] at hfil' ⊢
      simp [validate_skill_arguments, lookupKw, asMultiList, hv, hc, hm, hfil']
    | vlist l =>
      simp only [asMultiList] at hfil' ⊢
      simp [validate_skill_arguments, lookupKw, asMultiList, hv, hc, hm, hfil']
  · intro hm hne
    cases hx : (asMultiList v).filter
        (fun x => !p.constrained_values.contains x) with
    | nil => exact absurd hx hne
    | cons a as =>
      have hx' : (asMultiList v).filter
          (fun x => !decide (x ∈ p.constrained_values)) = a :: as := by
        simpa using hx
      cases v with
      | base b =>
        simp only [asMultiList] at hx' ⊢
        simp [validate_skill_arguments, lookupKw, asMultiList, hv, hc, hm, hx']
      | vlist l =>
        simp only [asMultiList] at hx' ⊢
        simp [validate_skill_arguments, lookupKw, asMultiList, hv, hc, hm, hx']

/-- A constrained `region` parameter allowing only `east` and `west`. -/
def constrRegionParam : SkillParameter :=
  ⟨"region", true, false, [.pstr "east", .pstr "west"]⟩

/-- Witness for C3 at the constrained `region` parameter and the in-set
value `"west"`. -/
theorem constrained_values_validator_spec_witness :
    (constrRegionParam.is_multi = false →
      pyMem (.base (.pstr "west")) constrRegionParam.constrained_values =
        true →
      validate_skill_arguments
          [(constrRegionParam.name, .base (.pstr "west"))]
          [constrRegionParam] =
        .ok [(constrRegionParam.name, .base (.pstr "west"))]) ∧
    (constrRegionParam.is_multi = false →
      pyMem (.base (.pstr "west")) constrRegionParam.constrained_values =
        false →
      validate_skill_arguments
          [(constrRegionParam.name, .base (.pstr "west"))]
          [constrRegionParam] =
        .error ("Invalid value for " ++ constrRegionParam.name ++ ": " ++
          (PyVal.base (.pstr "west")).pyStr ++ ". Allowed values: " ++
          pyReprList constrRegionParam.constrained_values)) ∧
    (constrRegionParam.is_multi = true →
      (∀ x ∈ asMultiList (.base (.pstr "west")),
        constrRegionParam.constrained_values.contains x = true) →
      validate_skill_arguments
          [(constrRegionParam.name, .base (.pstr "west"))]
          [constrRegionParam] =
        .ok [(constrRegionParam.name,
          .vlist (asMultiList (.base (.pstr "west"))))]) ∧
    (constrRegionParam.is_multi = true →
      (asMultiList (.base (.pstr "west"))).filter
        (fun x => !constrRegionParam.constrained_values.contains x) ≠ [] →
      validate_skill_arguments
          [(constrRegionParam.name, .base (.pstr "west"))]
          [constrRegionParam] =
        .error ("Invalid values for " ++ constrRegionParam.name ++ ": " ++
          pyReprList ((asMultiList (.base (.pstr "west"))).filter
            (fun x => !constrRegionParam.constrained_values.contains x)) ++
          ". Allowed values: " ++
          pyReprList constrRegionParam.constrained_values)) ∧
    (∀ params kwargs l, processParams params kwargs = .ok l →
      ∀ e ∈ l, lookupKw kwargs e.1 = some e.2) :=
  constrained_values_validator_spec constrRegionParam
    (.base (.pstr "west")) (by decide) (by decide)

/-- A tool config whose `region` parameter declares the constrained set. -/
def constrCfg : ToolConfig :=
  ⟨"sales_report", "sk-1", [constrRegionParam], some "c1"⟩

/-- Counterexample for C3 as stated: invoking the produced tool callable
with the out-of-set value `"north"` does not fail with a validation error —
the callable performs no constrained-value check, forwards the value to the
remote call, and returns the remote result. -/
theorem constrained_value_not_checked_by_tool_callable :
    skill_tool_function constrCfg happyClient none
        [("region", .base (.pstr "north"))] =
      (.returned (.val (.base (.pstr "done"))),
        [⟨"c1", "sales_report", [("region", .base (.pstr "north"))]⟩]) ∧
    ∀ e, (skill_tool_function constrCfg happyClient none
        [("region", .base (.pstr "north"))]).1 ≠
      .returned (.errDict e) := by
  have h : skill_tool_function constrCfg happyClient none
      [("region", .base (.pstr "north"))] =
    (.returned (.val (.base (.pstr "done"))),
      [⟨"c1", "sales_report", [("region", .base (.pstr "north"))]⟩]) := by
    decide
  refine ⟨h, ?_⟩
  intro e hcontra
  rw [h] at hcontra
  cases hcontra

/-! ## C6 -/

/-- C6: when a listing call finds a tenant id, all previously registered
tools are cleared before any of the new tenant's tools is added: every
entry of the resulting registry belongs to the found tenant, the returned
listing is exactly that registry, no other tenant's tool survives, and the
listing never mixes two tenants. -/
theorem dynamic_listing_isolates_tenant
    (env : ListEnv) (st : List (String × String)) (path : String)
    (cid : String) (hx : extract_copilot_id path = some cid)
    (hne : cid ≠ "") :
    (∀ e ∈ (RemoteMode.dynamic_list_tools env st path).1, e.1 = cid) ∧
    (RemoteMode.dynamic_list_tools env st path).2 =
      (RemoteMode.dynamic_list_tools env st path).1 ∧
    (∀ t n, t ≠ cid → (t, n) ∉ (RemoteMode.dynamic_list_tools env st path).1) ∧
    (∀ e ∈ (RemoteMode.dynamic_list_tools env st path).2,
      ∀ f ∈ (RemoteMode.dynamic_list_tools env st path).2, e.1 = f.1) := by
  have hmain : (∀ e ∈ (RemoteMode.dynamic_list_tools env st path).1,
        e.1 = cid) ∧
      (RemoteMode.dynamic_list_tools env st path).2 =
        (RemoteMode.dynamic_list_tools env st path).1 := by
    simp only [RemoteMode.dynamic_list_tools, hx]
    rw [if_neg hne]
    cases hok : env.clientOk with
    | false => simp
    | true =>
      cases hfetch : env.fetch cid with
      | nil => simp
      | cons a as =>
        constructor
        · intro e he
          simp only [List.nil_append] at he
          obtain ⟨n, _, hn⟩ := List.mem_map.mp he
          rw [← hn]
        · rfl
  obtain ⟨hall, hlist⟩ := hmain
  refine ⟨hall, hlist, ?_, ?_⟩
  · intro t n ht hmem
    exact ht (hall (t, n) hmem)
  · intro e he f hf
    rw [hlist] at he hf
    rw [hall e he, hall f hf]

/-- A dynamic-listing environment for witnesses: tenant `B` has one tool. -/
def tenantEnv : ListEnv := ⟨fun t => if t = "B" then ["b_tool"] else [], true⟩

/-- Witness for C6: tenant A's tool is registered, then tenant B's listing
cycle runs; no tool of A survives. -/
theorem dynamic_listing_isolates_tenant_witness :
    (∀ e ∈ (RemoteMode.dynamic_list_tools tenantEnv [("A", "a_tool")]
        "/mcp/agent/B").1, e.1 = "B") ∧
    (RemoteMode.dynamic_list_tools tenantEnv [("A", "a_tool")]
        "/mcp/agent/B").2 =
      (RemoteMode.dynamic_list_tools tenantEnv [("A", "a_tool")]
        "/mcp/agent/B").1 ∧
    (∀ t n, t ≠ "B" →
      (t, n) ∉ (RemoteMode.dynamic_list_tools tenantEnv [("A", "a_tool")]
        "/mcp/agent/B").1) ∧
    (∀ e ∈ (RemoteMode.dynamic_list_tools tenantEnv [("A", "a_tool")]
        "/mcp/agent/B").2,
      ∀ f ∈ (RemoteMode.dynamic_list_tools tenantEnv [("A", "a_tool")]
        "/mcp/agent/B").2, e.1 = f.1) :=
  dynamic_listing_isolates_tenant tenantEnv [("A", "a_tool")] "/mcp/agent/B"
    "B" (by decide) (by decide)

/-! ## C7 -/

/-- Evaluation of `dynamic_list_tools` (`modes/remote.py`) at a request
whose path carries no `/agent/` segment while tenant A's tool is still
registered: the registry is not cleared and the stale listing is returned
to the unidentified caller. -/
theorem stale_tools_served_when_no_tenant_found :
    RemoteMode.dynamic_list_tools tenantEnv [("A", "a_tool")] "/mcp" =
      ([("A", "a_tool")], [("A", "a_tool")]) := by
  decide

/-! ## C10 -/

/-- A concurrency environment with one tool per tenant. -/
def concEnv : ConcEnv := ⟨fun t => if t = "A" then ["a1"] else ["b1"]⟩

/-- Evaluation of two interleaved dynamic listing calls (tenants A and B)
under the schedule: A clears and suspends at the fetch, B clears and
suspends, A registers and returns, B registers and returns.  B's caller
receives a listing containing both tenants' tools — the clear-then-rebuild
section is not serialized. -/
theorem interleaved_clear_rebuild_mixes_tenants :
    ∃ l, (runSched concEnv ⟨[], ⟨"A", .ready⟩, ⟨"B", .ready⟩⟩
        [true, false, true, false]).t2.phase = .finished l ∧
      ("A", "a1") ∈ l ∧ ("B", "b1") ∈ l ∧ ("A" : String) ≠ "B" :=
  ⟨[("A", "a1"), ("B", "b1")], by decide, by decide, by decide, by decide⟩
